import Mathlib

/-!
Verification development for the trait-object resolution and vtable subsystem of a
MIR const-evaluation interpreter (`src/librustc/mir/interpret/traits.rs`).

The file shallow-embeds the five operations of that file:
`trans_fulfill_obligation`, `get_vtable`, `read_drop_type_from_vtable`,
`read_size_and_align_from_vtable` and `resolve_associated_const`, over an explicit
model of the interpreter memory (byte-addressed allocations with pointer-sized
word reads/writes) and of the external collaborators (trait-selection solver,
type-layout oracle, tcx queries), which are opaque function fields of `EvalContext`.
Machine-integer arithmetic that the source performs in `u64`/`u128` is modelled on `Nat`
with explicit `% 2 ^ 64` / `% 2 ^ (8 * W)` reductions at the points where the
source truncates.
-/

set_option autoImplicit false

namespace Interp

/-- `ty::subst::Substs`: the substitution attached to a trait reference or instance.
The self type is the first (type) parameter; `regions` holds the lifetime
(region) arguments, which `erase_regions` normalizes away. -/
structure Substs where
  selfTy : Nat
  typeArgs : List Nat
  regions : List Nat
deriving DecidableEq

/-- `ty::PolyTraitRef`: a trait identity plus its substitution. -/
structure TraitRef where
  trait_def_id : Nat
  substs : Substs
deriving DecidableEq

/-- `trait_ref.self_ty()`: the self type is the first substituted parameter. -/
def TraitRef.self_ty (tr : TraitRef) : Nat := tr.substs.selfTy

/-- `tcx.erase_regions(&trait_ref)` (line 25 of the source): replace every region
argument by the single erased region (modelled as `0`), leaving everything else
unchanged. -/
def erase_regions (tr : TraitRef) : TraitRef :=
  { tr with substs := { tr.substs with regions := tr.substs.regions.map (fun _ => 0) } }

/-- `ty::Instance`: a monomorphized (definition, substitution) pair, built by
`ty::Instance::new(def_id, substs)`. -/
structure Instance where
  def_id : Nat
  substs : Substs
deriving DecidableEq

/-- `ty::AssociatedKind` (the source matches on `AssociatedKind::Const`). -/
inductive AssociatedKind where
  | Const
  | Method
  | TypeAlias
deriving DecidableEq, BEq

/-- One entry of `tcx.associated_items(impl_def_id)`. -/
structure AssociatedItem where
  kind : AssociatedKind
  name : Nat
  def_id : Nat
deriving DecidableEq

/-- The payload of `traits::Vtable<'tcx, ()>`: either a concrete impl
(`traits::VtableImpl`, carrying `impl_def_id` and the impl's `substs`) or one of
the non-impl selection mechanisms (built-ins, object candidates, ...), which the
source treats uniformly by falling through. -/
inductive VtableKind where
  | vtableImpl (impl_def_id : Nat) (substs : Substs)
  | vtableOther (tag : Nat)
deriving DecidableEq

/-- A solver selection: which mechanism satisfied the obligation, plus its
nested obligations (opaque tags), which `trans_fulfill_obligation` registers in
a fulfillment context and then erases. -/
structure Selection where
  kind : VtableKind
  nested : List Nat
deriving DecidableEq

/-- Outcome of `selcx.select(&obligation)`: `Ok(Some(..))`, `Ok(None)` (ambiguity),
`Err(SelectionError::Unimplemented)`, or any other `Err(..)`. -/
inductive SelectResult where
  | okSome (s : Selection)
  | okNone
  | errUnimplemented
  | errOther (tag : Nat)
deriving DecidableEq

/-- The recoverable error values (`EvalResult::Err`) the embedded code can produce. -/
inductive EvalError where
  | unimplementedTraitSelection
  | readBytesAsPointer
  | readPointerAsBytes
  | invalidFunctionPointer
  | danglingPointer
  | pointerOutOfBounds
  | modifiedConstantMemory
  | pointerOverflow
  | machineError (tag : Nat)
deriving DecidableEq

/-- Fatal, evaluation-aborting conditions: `span_fatal`, `span_bug` and panics
(`expect`). These abort the session instead of being returned as `EvalResult` errors. -/
inductive Diagnostic where
  | recursionLimitSelectionAmbiguity (span : Nat)
  | selectionBug (span : Nat) (tag : Nat)
  | fulfillmentCycleBug (span : Nat)
  | unsizedVtablePanic
deriving DecidableEq

/-- Result of running a piece of the embedded code: a value, a recoverable
`EvalResult` error, or a fatal abort. -/
inductive Outcome (α : Type) where
  | ok (a : α)
  | err (e : EvalError)
  | fatal (d : Diagnostic)
deriving DecidableEq

/-- `syntax::ast::Mutability`, as passed to `mark_static_initalized`. -/
inductive Mutability where
  | Mutable
  | Immutable
deriving DecidableEq

/-- `2 ^ 64`: the modulus of the interpreter's 64-bit machine arithmetic
(`u64` offsets and allocation sizes). -/
def u64Modulus : Nat := 2 ^ 64

/-- `MemoryPointer`: an allocation identifier plus a byte offset. -/
structure MemoryPointer where
  alloc_id : Nat
  offset : Nat
deriving DecidableEq

/-- `MemoryPointer::offset(i, cx)`: overflow-checked offset addition; the source
checks for overflow of the 64-bit offset and returns an `EvalResult`. -/
def MemoryPointer.ptrOffset (p : MemoryPointer) (i : Nat) : Except EvalError MemoryPointer :=
  if p.offset + i < u64Modulus then .ok { p with offset := p.offset + i }
  else .error .pointerOverflow

/-- `PrimVal`, restricted to the shapes this file produces and consumes:
an unsigned integer (`Bytes`) or a pointer (`Ptr`). -/
inductive PrimVal where
  | Bytes (n : Nat)
  | Ptr (p : MemoryPointer)
deriving DecidableEq

/-- Writing a `PrimVal` into a pointer-sized slot truncates an integer to the
pointer width `W` (the source writes `size as u128` through
`write_ptr_sized_unsigned`, which stores exactly `W` bytes). -/
def truncWord (W : Nat) : PrimVal → PrimVal
  | .Bytes n => .Bytes (n % 2 ^ (8 * W))
  | .Ptr p => .Ptr p

/-- `PrimVal::to_bytes()`: an integer value, or an error on a pointer. -/
def PrimVal.to_bytes : PrimVal → Except EvalError Nat
  | .Bytes n => .ok n
  | .Ptr _ => .error .readPointerAsBytes

/-- The fragment of `Value` that `read_ptr` can produce. -/
inductive Value where
  | ByVal (v : PrimVal)
  | ByValPair (a b : PrimVal)
deriving DecidableEq

/-- First-match association-list lookup (keys are allocation ids or byte offsets). -/
def alookup {α : Type} (id : Nat) : List (Nat × α) → Option α
  | [] => none
  | (k, v) :: rest => if k = id then some v else alookup id rest

/-- Update the first entry with the given key, leaving the rest untouched. -/
def updateAlloc {α : Type} (id : Nat) (f : α → α) : List (Nat × α) → List (Nat × α)
  | [] => []
  | (k, v) :: rest => if k = id then (k, f v) :: rest else (k, v) :: updateAlloc id f rest

/-- One interpreter allocation: its byte size and alignment, its pointer-sized
words (keyed by byte offset, most recent write first), and its static marking. -/
structure Allocation where
  size : Nat
  align : Nat
  words : List (Nat × PrimVal)
  isStatic : Bool
  mutability : Mutability
deriving DecidableEq

/-- Modelled from the spec: `memory.rs` is not under `src/`. Reading a
pointer-sized word of an allocation; a word never written reads as the null
sentinel (zero), following the spec's vtable builder procedure, where an
unwritten method slot is left "as the null sentinel". -/
def Allocation.readWordAt (a : Allocation) (o : Nat) : PrimVal :=
  match alookup o a.words with
  | some v => v
  | none => .Bytes 0

/-- The interpreter memory: pointer width, data allocations, function
allocations, and a fresh-id counter. -/
structure Memory where
  ptrSize : Nat
  allocs : List (Nat × Allocation)
  fnAllocs : List (Nat × Instance)
  nextId : Nat
deriving DecidableEq

/-- `memory.pointer_size()`. -/
def Memory.pointer_size (m : Memory) : Nat := m.ptrSize

/-- Modelled from the spec: `memory.allocate(size, align, None)` from `memory.rs`
(not under `src/`): `allocate(size, align) -> handle` returns a handle to a fresh
block of the requested size and alignment (offset 0), not yet marked static. -/
def Memory.allocate (m : Memory) (size align : Nat) :
    Except EvalError (MemoryPointer × Memory) :=
  .ok (⟨m.nextId, 0⟩,
    { m with
      allocs := (m.nextId, ⟨size, align, [], false, .Mutable⟩) :: m.allocs,
      nextId := m.nextId + 1 })

/-- Modelled from the spec: `memory.create_fn_alloc(instance)` from `memory.rs`
(not under `src/`): a `FunctionInstance` is "addressable as a function pointer
value", so each instance is interned as a fresh function allocation that
`get_fn` resolves back. -/
def Memory.create_fn_alloc (m : Memory) (i : Instance) : MemoryPointer × Memory :=
  (⟨m.nextId, 0⟩, { m with fnAllocs := (m.nextId, i) :: m.fnAllocs, nextId := m.nextId + 1 })

/-- Modelled from the spec: `memory.get_fn(ptr)` from `memory.rs` (not under
`src/`): resolve a function pointer back to its `FunctionInstance`; fails on a
non-zero offset or an unknown allocation. -/
def Memory.get_fn (m : Memory) (p : MemoryPointer) : Except EvalError Instance :=
  if p.offset ≠ 0 then .error .invalidFunctionPointer
  else
    match alookup p.alloc_id m.fnAllocs with
    | some i => .ok i
    | none => .error .invalidFunctionPointer

/-- Modelled from the spec: `memory.write_ptr_sized_unsigned(ptr, val)` from
`memory.rs` (not under `src/`): bounds-checked pointer-sized store; a block
marked static rejects writes iff its recorded mutability is immutable
("supports marking a block immutable after initialization"). -/
def Memory.write_ptr_sized_unsigned (m : Memory) (p : MemoryPointer) (v : PrimVal) :
    Except EvalError Memory :=
  match alookup p.alloc_id m.allocs with
  | none => .error .danglingPointer
  | some a =>
    if a.isStatic && a.mutability == Mutability.Immutable then .error .modifiedConstantMemory
    else if p.offset + m.ptrSize ≤ a.size then
      .ok { m with
        allocs := updateAlloc p.alloc_id
          (fun a0 => { a0 with words := (p.offset, truncWord m.ptrSize v) :: a0.words })
          m.allocs }
    else .error .pointerOutOfBounds

/-- Modelled from the spec: `memory.read_ptr_sized_unsigned(ptr)` from
`memory.rs` (not under `src/`): bounds-checked pointer-sized load. -/
def Memory.read_ptr_sized_unsigned (m : Memory) (p : MemoryPointer) :
    Except EvalError PrimVal :=
  match alookup p.alloc_id m.allocs with
  | none => .error .danglingPointer
  | some a =>
    if p.offset + m.ptrSize ≤ a.size then .ok (a.readWordAt p.offset)
    else .error .pointerOutOfBounds

/-- `self.read_ptr(ptr, pointee_ty)` for a thin pointee: reads one pointer-sized
value and wraps it as `Value::ByVal`. -/
def Memory.read_ptr (m : Memory) (p : MemoryPointer) : Except EvalError Value :=
  match m.read_ptr_sized_unsigned p with
  | .error e => .error e
  | .ok w => .ok (.ByVal w)

/-- `memory.mark_static_initalized(alloc_id, mutability)`: mark the block as an
initialized static with the given mutability (modelled from the spec for the
part living in `memory.rs`; the mutability argument is the one the source
passes). -/
def Memory.mark_static_initalized (m : Memory) (id : Nat) (mu : Mutability) :
    Except EvalError Memory :=
  .ok { m with
    allocs := updateAlloc id (fun a => { a with isStatic := true, mutability := mu }) m.allocs }

/-- The evaluation context: the external collaborators of the file, as opaque
oracles. `needs_drop` is the layout oracle's non-trivial-destruction predicate
(`ty.needs_drop` in the compiler); the vtable code never consults it. -/
structure EvalContext where
  select : Nat → Nat → TraitRef → SelectResult
  drain_fulfillment : Nat → List Nat → VtableKind → Option VtableKind
  type_size : Nat → Except EvalError (Option Nat)
  type_align : Nat → Except EvalError Nat
  get_vtable_methods : TraitRef → List (Option (Nat × Substs))
  resolve : Nat → Substs → Instance
  resolve_drop_in_place : Nat → Instance
  trait_of_item : Nat → Option Nat
  item_name : Nat → Nat
  associated_items : Nat → List AssociatedItem
  param_env : Nat
  needs_drop : Nat → Bool

/-- `DUMMY_SP`. -/
def DUMMY_SP : Nat := 0

/-- `trans_fulfill_obligation` (lines 18-81): erase regions, run the solver on
the obligation; ambiguity is the fatal recursion-limit diagnostic, `Unimplemented`
is the recoverable error, any other solver error is a bug; on success, drive the
nested obligations to completion (failure there is a fatal internal bug) and
return the selection with nested payloads erased. -/
def trans_fulfill_obligation (ctx : EvalContext) (span : Nat) (param_env : Nat)
    (trait_ref : TraitRef) : Outcome VtableKind :=
  let trait_ref := erase_regions trait_ref
  match ctx.select span param_env trait_ref with
  | .okSome selection =>
    match ctx.drain_fulfillment span selection.nested selection.kind with
    | some vtable => .ok vtable
    | none => .fatal (.fulfillmentCycleBug span)
  | .okNone => .fatal (.recursionLimitSelectionAmbiguity span)
  | .errUnimplemented => .err .unimplementedTraitSelection
  | .errOther t => .fatal (.selectionBug span t)

/-- The method loop of `get_vtable` (lines 117-124): for slot `i`, a
`Some((def_id, substs))` entry is resolved and its function pointer written at
byte offset `ptr_size * (3 + i)`; a `None` entry writes nothing. -/
def write_vtable_methods (ctx : EvalContext) (ptr_size : Nat) (vtable : MemoryPointer) :
    Nat → List (Option (Nat × Substs)) → Memory → Outcome Memory
  | _, [], mem => .ok mem
  | i, none :: rest, mem => write_vtable_methods ctx ptr_size vtable (i + 1) rest mem
  | i, some (def_id, substs) :: rest, mem =>
    let inst := ctx.resolve def_id substs
    let fnpm := mem.create_fn_alloc inst
    match vtable.ptrOffset (ptr_size * (3 + i)) with
    | .error e => .err e
    | .ok method_ptr =>
      match (fnpm.2).write_ptr_sized_unsigned method_ptr (.Ptr fnpm.1) with
      | .error e => .err e
      | .ok mem2 => write_vtable_methods ctx ptr_size vtable (i + 1) rest mem2

/-- `get_vtable` (lines 88-132): query size and alignment of the self type
(panicking on an unsized type), allocate `ptr_size * (3 + methods.count())`
bytes at `ptr_size` alignment (the multiplication is `u64` arithmetic), write
the drop-glue function pointer at offset 0, the size at `W`, the alignment at
`2W`, fill the method slots, and finally mark the block static-initialized with
`Mutability::Mutable`. -/
def get_vtable (ctx : EvalContext) (mem : Memory) (ty : Nat) (trait_ref : TraitRef) :
    Outcome (MemoryPointer × Memory) :=
  match ctx.type_size trait_ref.self_ty with
  | .error e => .err e
  | .ok none => .fatal .unsizedVtablePanic
  | .ok (some size) =>
    match ctx.type_align trait_ref.self_ty with
    | .error e => .err e
    | .ok align =>
      let ptr_size := mem.pointer_size
      let methods := ctx.get_vtable_methods trait_ref
      match mem.allocate ((ptr_size * (3 + methods.length)) % u64Modulus) ptr_size with
      | .error e => .err e
      | .ok (vtable, mem1) =>
        let dropInst := ctx.resolve_drop_in_place ty
        let dpm := mem1.create_fn_alloc dropInst
        match (dpm.2).write_ptr_sized_unsigned vtable (.Ptr dpm.1) with
        | .error e => .err e
        | .ok mem3 =>
          match vtable.ptrOffset ptr_size with
          | .error e => .err e
          | .ok size_ptr =>
            match mem3.write_ptr_sized_unsigned size_ptr (.Bytes size) with
            | .error e => .err e
            | .ok mem4 =>
              match vtable.ptrOffset (ptr_size * 2) with
              | .error e => .err e
              | .ok align_ptr =>
                match mem4.write_ptr_sized_unsigned align_ptr (.Bytes align) with
                | .error e => .err e
                | .ok mem5 =>
                  match write_vtable_methods ctx ptr_size vtable 0 methods mem5 with
                  | .err e => .err e
                  | .fatal d => .fatal d
                  | .ok mem6 =>
                    match mem6.mark_static_initalized vtable.alloc_id .Mutable with
                    | .error e => .err e
                    | .ok mem7 => .ok (vtable, mem7)

/-- `read_drop_type_from_vtable` (lines 134-145): the word at offset 0 is either
the null sentinel (no drop), a function pointer resolved through `get_fn`, or a
decode error. -/
def read_drop_type_from_vtable (mem : Memory) (vtable : MemoryPointer) :
    Except EvalError (Option Instance) :=
  match mem.read_ptr vtable with
  | .error e => .error e
  | .ok (.ByVal (.Bytes 0)) => .ok none
  | .ok (.ByVal (.Ptr drop_fn)) =>
    match mem.get_fn drop_fn with
    | .error e => .error e
    | .ok i => .ok (some i)
  | .ok _ => .error .readBytesAsPointer

/-- `read_size_and_align_from_vtable` (lines 147-157): read the words at offsets
`W` and `2W` as unsigned integers (`as u64` is `% 2 ^ 64`). -/
def read_size_and_align_from_vtable (mem : Memory) (vtable : MemoryPointer) :
    Except EvalError (Nat × Nat) :=
  match vtable.ptrOffset mem.pointer_size with
  | .error e => .error e
  | .ok p1 =>
    match mem.read_ptr_sized_unsigned p1 with
    | .error e => .error e
    | .ok v1 =>
      match v1.to_bytes with
      | .error e => .error e
      | .ok size =>
        match vtable.ptrOffset (mem.pointer_size * 2) with
        | .error e => .error e
        | .ok p2 =>
          match mem.read_ptr_sized_unsigned p2 with
          | .error e => .error e
          | .ok v2 =>
            match v2.to_bytes with
            | .error e => .error e
            | .ok align => .ok (size % u64Modulus, align % u64Modulus)

/-- `resolve_associated_const` (lines 159-180): for a trait item, fulfill the
trait reference built from the owning trait and the given substitution; when a
concrete impl is selected and carries a constant item of the same name, return
that item's definition with the impl's substitution; in every other non-error
case return the original pair unchanged. -/
def resolve_associated_const (ctx : EvalContext) (def_id : Nat) (substs : Substs) :
    Outcome Instance :=
  match ctx.trait_of_item def_id with
  | some trait_id =>
    match trans_fulfill_obligation ctx DUMMY_SP ctx.param_env ⟨trait_id, substs⟩ with
    | .ok (.vtableImpl impl_def_id isubsts) =>
      match (ctx.associated_items impl_def_id).find?
          (fun item => item.kind == AssociatedKind.Const && item.name == ctx.item_name def_id) with
      | some assoc_const => .ok ⟨assoc_const.def_id, isubsts⟩
      | none => .ok ⟨def_id, substs⟩
    | .ok (.vtableOther _) => .ok ⟨def_id, substs⟩
    | .err e => .err e
    | .fatal d => .fatal d
  | none => .ok ⟨def_id, substs⟩

/-- Composition used by the round-trip claims: build a vtable, then read the
destructor entry back from the fresh table. -/
def drop_after_build (ctx : EvalContext) (mem : Memory) (ty : Nat) (tr : TraitRef) :
    Outcome (Option Instance) :=
  match get_vtable ctx mem ty tr with
  | .ok (vt, mem2) =>
    match read_drop_type_from_vtable mem2 vt with
    | .error e => .err e
    | .ok r => .ok r
  | .err e => .err e
  | .fatal d => .fatal d

/-- Concrete substitution used by the witnesses: self type `7`, no type or
region arguments. -/
def substsW : Substs := ⟨7, [], []⟩

/-- Concrete trait reference used by the witnesses. -/
def trW : TraitRef := ⟨1, substsW⟩

/-- Concrete evaluation context used by the witnesses: a 2-slot method table
(one dispatchable method, one non-dispatchable), a 4-byte self type with no
destruction, and a solver that selects impl `10`. -/
def ctxW : EvalContext where
  select := fun _ _ _ => .okSome ⟨.vtableImpl 10 substsW, []⟩
  drain_fulfillment := fun _ _ k => some k
  type_size := fun _ => .ok (some 4)
  type_align := fun _ => .ok 4
  get_vtable_methods := fun _ => [some (20, substsW), none]
  resolve := fun d s => ⟨d + 100, s⟩
  resolve_drop_in_place := fun t => ⟨1000 + t, substsW⟩
  trait_of_item := fun d => if d = 5 then some 1 else none
  item_name := fun d => d
  associated_items := fun _ => [⟨.Const, 5, 42⟩]
  param_env := 0
  needs_drop := fun _ => false

/-- Concrete context whose solver reports ambiguity (`Ok(None)`). -/
def ctxAmb : EvalContext := { ctxW with select := fun _ _ _ => .okNone }

/-- Concrete context whose solver reports `SelectionError::Unimplemented`. -/
def ctxUnimpl : EvalContext := { ctxW with select := fun _ _ _ => .errUnimplemented }

/-- Concrete initial memory used by the witnesses: 8-byte pointers, empty. -/
def memW : Memory := ⟨8, [], [], 0⟩

/-- Concrete context whose layout oracle reports the self type unsized. -/
def ctxUnsized : EvalContext := { ctxW with type_size := fun _ => .ok none }

/-- Concrete trait reference with one region argument, value 5. -/
def trR1 : TraitRef := ⟨1, ⟨7, [], [5]⟩⟩

/-- Concrete trait reference identical to `trR1` except for its region argument. -/
def trR2 : TraitRef := ⟨1, ⟨7, [], [9]⟩⟩

end Interp

namespace Interp

theorem alookup_updateAlloc_self {α : Type} (id : Nat) (f : α → α) (l : List (Nat × α)) :
    alookup id (updateAlloc id f l) = (alookup id l).map f := by
  induction l with
  | nil => rfl
  | cons hd tl ih =>
    obtain ⟨k, v⟩ := hd
    by_cases h : k = id
    · simp [updateAlloc, alookup, h]
    · simp [updateAlloc, alookup, h, ih]

theorem alookup_updateAlloc_ne {α : Type} (id idx : Nat) (f : α → α) (l : List (Nat × α))
    (h : idx ≠ id) : alookup idx (updateAlloc id f l) = alookup idx l := by
  induction l with
  | nil => rfl
  | cons hd tl ih =>
    obtain ⟨k, v⟩ := hd
    by_cases hk : k = id
    · have hki : ¬(id = idx) := fun hc => h hc.symm
      simp [updateAlloc, alookup, hk, hki]
    · simp [updateAlloc, alookup, hk, ih]

theorem length_updateAlloc {α : Type} (id : Nat) (f : α → α) (l : List (Nat × α)) :
    (updateAlloc id f l).length = l.length := by
  induction l with
  | nil => rfl
  | cons hd tl ih =>
    obtain ⟨k, v⟩ := hd
    by_cases h : k = id <;> simp [updateAlloc, h, ih]

theorem readWordAt_cons (a : Allocation) (k o : Nat) (v : PrimVal) :
    Allocation.readWordAt { a with words := (k, v) :: a.words } o =
      if k = o then v else a.readWordAt o := by
  by_cases h : k = o <;> simp [Allocation.readWordAt, alookup, h]

theorem write_ptr_sized_ok (m : Memory) (p : MemoryPointer) (v : PrimVal) (a : Allocation)
    (ha : alookup p.alloc_id m.allocs = some a) (hs : a.isStatic = false)
    (hb : p.offset + m.ptrSize ≤ a.size) :
    m.write_ptr_sized_unsigned p v =
      .ok { m with
        allocs := updateAlloc p.alloc_id
            (fun a0 => { a0 with words := (p.offset, truncWord m.ptrSize v) :: a0.words })
            m.allocs } := by
  simp [Memory.write_ptr_sized_unsigned, ha, hs, hb]

theorem mul_lt_helper (W a b : Nat) (hW : 0 < W) (h : a < b) : W * a < W * b := by
  have h1 : W * (a + 1) ≤ W * b := Nat.mul_le_mul (Nat.le_refl W) h
  have h2 : W * a + W = W * (a + 1) := by ring
  omega

theorem mul_ne_helper (W a b : Nat) (hW : 0 < W) (h : a ≠ b) : W * a ≠ W * b := by
  rcases Nat.lt_or_ge a b with hl | hg
  · exact Nat.ne_of_lt (mul_lt_helper W a b hW hl)
  · have hba : b < a := by omega
    exact (Nat.ne_of_lt (mul_lt_helper W b a hW hba)).symm

end Interp

namespace Interp

theorem write_vtable_methods_spec (ctx : EvalContext) (W : Nat) (vt : MemoryPointer)
    (ms : List (Option (Nat × Substs))) :
    ∀ (i : Nat) (mem : Memory) (A : Allocation),
      vt.offset = 0 →
      mem.ptrSize = W →
      alookup vt.alloc_id mem.allocs = some A →
      A.isStatic = false →
      0 < W →
      W * (3 + i + ms.length) ≤ A.size →
      A.size < u64Modulus →
      ∃ (mem' : Memory) (A' : Allocation),
        write_vtable_methods ctx W vt i ms mem = .ok mem' ∧
        alookup vt.alloc_id mem'.allocs = some A' ∧
        A'.size = A.size ∧ A'.align = A.align ∧
        A'.isStatic = A.isStatic ∧ A'.mutability = A.mutability ∧
        (∀ o, o < W * (3 + i) → A'.readWordAt o = A.readWordAt o) ∧
        (∀ j d s, ms.get? j = some (some (d, s)) →
          ∃ fp : MemoryPointer, A'.readWordAt (W * (3 + i + j)) = .Ptr fp ∧ fp.offset = 0 ∧
            alookup fp.alloc_id mem'.fnAllocs = some (ctx.resolve d s)) ∧
        (∀ j, ms.get? j = some none →
          A'.readWordAt (W * (3 + i + j)) = A.readWordAt (W * (3 + i + j))) ∧
        mem'.ptrSize = mem.ptrSize ∧
        mem'.allocs.length = mem.allocs.length ∧
        (∀ id, id ≠ vt.alloc_id → alookup id mem'.allocs = alookup id mem.allocs) ∧
        (∀ fid, fid < mem.nextId → alookup fid mem'.fnAllocs = alookup fid mem.fnAllocs) ∧
        mem.nextId ≤ mem'.nextId := by
  induction ms with
  | nil =>
    intro i mem A hvt hps ha hs hW hsz hfit
    refine ⟨mem, A, rfl, ha, rfl, rfl, rfl, rfl, fun o _ => rfl, ?_, ?_, rfl, rfl,
      fun _ _ => rfl, fun _ _ => rfl, Nat.le_refl _⟩
    · intro j d s h; simp [List.get?] at h
    · intro j h; simp [List.get?] at h
  | cons m rest ih =>
    intro i mem A hvt hps ha hs hW hsz hfit
    simp only [List.length_cons] at hsz
    cases m with
    | none =>
      have hsz' : W * (3 + (i + 1) + rest.length) ≤ A.size := by
        have he : 3 + (i + 1) + rest.length = 3 + i + (rest.length + 1) := by omega
        rw [he]; exact hsz
      obtain ⟨mem', A', hrun, hla, hsize, halign, hstat, hmut, hpres, hsome, hnone,
        hptr, hlen, hoth, hfn, hnid⟩ := ih (i + 1) mem A hvt hps ha hs hW hsz' hfit
      have hstep : W * (3 + i) < W * (3 + (i + 1)) := mul_lt_helper W _ _ hW (by omega)
      refine ⟨mem', A', ?_, hla, hsize, halign, hstat, hmut, ?_, ?_, ?_, hptr, hlen,
        hoth, hfn, hnid⟩
      · simpa only [write_vtable_methods] using hrun
      · intro o ho
        exact hpres o (lt_trans ho hstep)
      · intro j d s hj
        cases j with
        | zero => simp [List.get?] at hj
        | succ j' =>
          simp only [List.get?] at hj
          have he : 3 + i + (j' + 1) = 3 + (i + 1) + j' := by omega
          rw [he]
          exact hsome j' d s hj
      · intro j hj
        cases j with
        | zero =>
          have he : 3 + i + 0 = 3 + i := by omega
          rw [he]
          exact hpres (W * (3 + i)) hstep
        | succ j' =>
          simp only [List.get?] at hj
          have he : 3 + i + (j' + 1) = 3 + (i + 1) + j' := by omega
          rw [he]
          exact hnone j' hj
    | some ds =>
      obtain ⟨d0, s0⟩ := ds
      have hle1 : W * (3 + i + 1) ≤ W * (3 + i + (rest.length + 1)) :=
        Nat.mul_le_mul (Nat.le_refl W) (by omega)
      have hszA : W * (3 + i) + W ≤ A.size := by
        have h1 : W * (3 + i) + W = W * (3 + i + 1) := by ring
        omega
      have hofflt : vt.offset + W * (3 + i) < u64Modulus := by
        rw [hvt, Nat.zero_add]
        have h2 : W * (3 + i) < W * (3 + i + (rest.length + 1)) :=
          mul_lt_helper W _ _ hW (by omega)
        exact lt_trans (lt_of_lt_of_le h2 hsz) hfit
      have hoffeq : vt.ptrOffset (W * (3 + i)) = .ok ⟨vt.alloc_id, W * (3 + i)⟩ := by
        unfold MemoryPointer.ptrOffset
        rw [if_pos hofflt, hvt, Nat.zero_add]
      have hb1 : W * (3 + i) + mem.ptrSize ≤ A.size := by rw [hps]; exact hszA
      obtain ⟨A2, hA2⟩ : ∃ A2 : Allocation, A2 =
          { A with words := (W * (3 + i), PrimVal.Ptr ⟨mem.nextId, 0⟩) :: A.words } :=
        ⟨_, rfl⟩
      obtain ⟨mem2, hmem2⟩ : ∃ mem2 : Memory, mem2 =
          { mem with
            allocs := updateAlloc vt.alloc_id
                (fun a0 => { a0 with
                    words := (W * (3 + i), PrimVal.Ptr ⟨mem.nextId, 0⟩) :: a0.words })
                mem.allocs,
            fnAllocs := (mem.nextId, ctx.resolve d0 s0) :: mem.fnAllocs,
            nextId := mem.nextId + 1 } :=
        ⟨_, rfl⟩
      have hps2 : mem2.ptrSize = W := by rw [hmem2]; exact hps
      have ha2 : alookup vt.alloc_id mem2.allocs = some A2 := by
        rw [hmem2, hA2]
        show alookup vt.alloc_id (updateAlloc vt.alloc_id
            (fun a0 => { a0 with
                words := (W * (3 + i), PrimVal.Ptr ⟨mem.nextId, 0⟩) :: a0.words })
            mem.allocs) =
          some { A with words := (W * (3 + i), PrimVal.Ptr ⟨mem.nextId, 0⟩) :: A.words }
        rw [alookup_updateAlloc_self, ha]
        rfl
      have hs2 : A2.isStatic = false := by rw [hA2]; exact hs
      have hsz2 : W * (3 + (i + 1) + rest.length) ≤ A2.size := by
        rw [hA2]
        have he : 3 + (i + 1) + rest.length = 3 + i + (rest.length + 1) := by omega
        rw [he]; exact hsz
      have hfit2 : A2.size < u64Modulus := by rw [hA2]; exact hfit
      obtain ⟨mem', A', hrun, hla, hsize, halign, hstat, hmut, hpres, hsome, hnone,
        hptr, hlen, hoth, hfn, hnid⟩ := ih (i + 1) mem2 A2 hvt hps2 ha2 hs2 hW hsz2 hfit2
      have hstep : W * (3 + i) < W * (3 + (i + 1)) := mul_lt_helper W _ _ hW (by omega)
      refine ⟨mem', A', ?_, hla, ?_, ?_, ?_, ?_, ?_, ?_, ?_, ?_, ?_, ?_, ?_, ?_⟩
      · -- run equation
        rw [hmem2] at hrun
        simp [write_vtable_methods, Memory.create_fn_alloc, hoffeq,
          Memory.write_ptr_sized_unsigned, ha, hs, hb1, truncWord]
        exact hrun
      · rw [hsize, hA2]
      · rw [halign, hA2]
      · rw [hstat, hA2, hs]
      · rw [hmut, hA2]
      · intro o ho
        rw [hpres o (lt_trans ho hstep), hA2, readWordAt_cons,
          if_neg (Ne.symm (Nat.ne_of_lt ho))]
      · intro j d s hj
        cases j with
        | zero =>
          simp only [List.get?] at hj
          injection hj with h1
          injection h1 with h2
          injection h2 with hd hs3
          subst hd; subst hs3
          refine ⟨⟨mem.nextId, 0⟩, ?_, rfl, ?_⟩
          · have he : 3 + i + 0 = 3 + i := by omega
            rw [he, hpres (W * (3 + i)) hstep, hA2, readWordAt_cons, if_pos rfl]
          · have hlt2 : mem.nextId < mem2.nextId := by
              rw [hmem2]; exact Nat.lt_succ_self _
            rw [hfn mem.nextId hlt2, hmem2]
            show alookup mem.nextId ((mem.nextId, ctx.resolve d0 s0) :: mem.fnAllocs) =
              some (ctx.resolve d0 s0)
            simp [alookup]
        | succ j' =>
          simp only [List.get?] at hj
          have he : 3 + i + (j' + 1) = 3 + (i + 1) + j' := by omega
          rw [he]
          exact hsome j' d s hj
      · intro j hj
        cases j with
        | zero => simp [List.get?] at hj
        | succ j' =>
          simp only [List.get?] at hj
          have he : 3 + i + (j' + 1) = 3 + (i + 1) + j' := by omega
          rw [he, hnone j' hj, hA2, readWordAt_cons,
            if_neg (mul_ne_helper W (3 + i) (3 + (i + 1) + j') hW (by omega))]
      · rw [hptr, hmem2]
      · rw [hlen, hmem2]
        show (updateAlloc vt.alloc_id
            (fun a0 => { a0 with
                words := (W * (3 + i), PrimVal.Ptr ⟨mem.nextId, 0⟩) :: a0.words })
            mem.allocs).length = mem.allocs.length
        exact length_updateAlloc _ _ _
      · intro id hid
        rw [hoth id hid, hmem2]
        show alookup id (updateAlloc vt.alloc_id
            (fun a0 => { a0 with
                words := (W * (3 + i), PrimVal.Ptr ⟨mem.nextId, 0⟩) :: a0.words })
            mem.allocs) = alookup id mem.allocs
        exact alookup_updateAlloc_ne _ _ _ _ hid
      · intro fid hfid
        have hlt2 : fid < mem2.nextId := by
          rw [hmem2]; exact Nat.lt_succ_of_lt hfid
        rw [hfn fid hlt2, hmem2]
        show alookup fid ((mem.nextId, ctx.resolve d0 s0) :: mem.fnAllocs) =
          alookup fid mem.fnAllocs
        have hne : ¬(mem.nextId = fid) := by omega
        simp [alookup, hne]
      · have h2 : mem.nextId + 1 = mem2.nextId := by rw [hmem2]
        omega

end Interp

namespace Interp

theorem readWordAt_mark (a : Allocation) (b1 : Bool) (mu : Mutability) (o : Nat) :
    Allocation.readWordAt { a with isStatic := b1, mutability := mu } o = a.readWordAt o := rfl

theorem get_vtable_ok (ctx : EvalContext) (mem : Memory) (ty : Nat) (tr : TraitRef)
    (sz al : Nat)
    (hsz : ctx.type_size tr.self_ty = Except.ok (some sz))
    (hal : ctx.type_align tr.self_ty = Except.ok al)
    (hW : 0 < mem.ptrSize)
    (hfit : mem.ptrSize * (3 + (ctx.get_vtable_methods tr).length) < u64Modulus) :
    ∃ (memF : Memory) (A : Allocation),
      get_vtable ctx mem ty tr = .ok (⟨mem.nextId, 0⟩, memF) ∧
      alookup mem.nextId memF.allocs = some A ∧
      A.size = mem.ptrSize * (3 + (ctx.get_vtable_methods tr).length) ∧
      A.align = mem.ptrSize ∧
      A.isStatic = true ∧
      A.mutability = .Mutable ∧
      (∃ fp : MemoryPointer, A.readWordAt 0 = .Ptr fp ∧ fp.offset = 0 ∧
        alookup fp.alloc_id memF.fnAllocs = some (ctx.resolve_drop_in_place ty)) ∧
      A.readWordAt mem.ptrSize = .Bytes (sz % 2 ^ (8 * mem.ptrSize)) ∧
      A.readWordAt (mem.ptrSize * 2) = .Bytes (al % 2 ^ (8 * mem.ptrSize)) ∧
      (∀ j d s, (ctx.get_vtable_methods tr).get? j = some (some (d, s)) →
        ∃ fp : MemoryPointer, A.readWordAt (mem.ptrSize * (3 + j)) = .Ptr fp ∧
          fp.offset = 0 ∧
          alookup fp.alloc_id memF.fnAllocs = some (ctx.resolve d s)) ∧
      (∀ j, (ctx.get_vtable_methods tr).get? j = some none →
        A.readWordAt (mem.ptrSize * (3 + j)) = .Bytes 0) ∧
      memF.ptrSize = mem.ptrSize ∧
      memF.allocs.length = mem.allocs.length + 1 ∧
      (∀ id, id ≠ mem.nextId → alookup id memF.allocs = alookup id mem.allocs) := by
  have hmod : (mem.ptrSize * (3 + (ctx.get_vtable_methods tr).length)) % u64Modulus =
      mem.ptrSize * (3 + (ctx.get_vtable_methods tr).length) := Nat.mod_eq_of_lt hfit
  have hWle : mem.ptrSize ≤ mem.ptrSize * (3 + (ctx.get_vtable_methods tr).length) := by
    have h := Nat.mul_le_mul (Nat.le_refl mem.ptrSize)
      (show 1 ≤ 3 + (ctx.get_vtable_methods tr).length by omega)
    simpa using h
  have hb1 : mem.ptrSize + mem.ptrSize ≤
      mem.ptrSize * (3 + (ctx.get_vtable_methods tr).length) := by
    have h := Nat.mul_le_mul (Nat.le_refl mem.ptrSize)
      (show 2 ≤ 3 + (ctx.get_vtable_methods tr).length by omega)
    have h2 : mem.ptrSize * 2 = mem.ptrSize + mem.ptrSize := by ring
    omega
  have hb2 : mem.ptrSize * 2 + mem.ptrSize ≤
      mem.ptrSize * (3 + (ctx.get_vtable_methods tr).length) := by
    have h := Nat.mul_le_mul (Nat.le_refl mem.ptrSize)
      (show 3 ≤ 3 + (ctx.get_vtable_methods tr).length by omega)
    have h2 : mem.ptrSize * 3 = mem.ptrSize * 2 + mem.ptrSize := by ring
    omega
  have hlt1 : mem.ptrSize < u64Modulus := lt_of_le_of_lt hWle hfit
  have hlt2 : mem.ptrSize * 2 < u64Modulus := by omega
  have hoff1 : MemoryPointer.ptrOffset ⟨mem.nextId, 0⟩ mem.ptrSize =
      Except.ok ⟨mem.nextId, mem.ptrSize⟩ := by
    unfold MemoryPointer.ptrOffset
    rw [if_pos (show (⟨mem.nextId, 0⟩ : MemoryPointer).offset + mem.ptrSize < u64Modulus by
      simpa using hlt1)]
    simp
  have hoff2 : MemoryPointer.ptrOffset ⟨mem.nextId, 0⟩ (mem.ptrSize * 2) =
      Except.ok ⟨mem.nextId, mem.ptrSize * 2⟩ := by
    unfold MemoryPointer.ptrOffset
    rw [if_pos (show (⟨mem.nextId, 0⟩ : MemoryPointer).offset + mem.ptrSize * 2 < u64Modulus by
      simpa using hlt2)]
    simp
  obtain ⟨A3, hA3⟩ : ∃ a : Allocation, a =
      { size := mem.ptrSize * (3 + (ctx.get_vtable_methods tr).length)
        align := mem.ptrSize
        words := [(mem.ptrSize * 2, PrimVal.Bytes (al % 2 ^ (8 * mem.ptrSize))),
                  (mem.ptrSize, PrimVal.Bytes (sz % 2 ^ (8 * mem.ptrSize))),
                  (0, PrimVal.Ptr ⟨mem.nextId + 1, 0⟩)]
        isStatic := false
        mutability := Mutability.Mutable } := ⟨_, rfl⟩
  obtain ⟨memE, hmemE⟩ : ∃ m : Memory, m =
      { ptrSize := mem.ptrSize
        allocs := (mem.nextId,
          ({ size := mem.ptrSize * (3 + (ctx.get_vtable_methods tr).length)
             align := mem.ptrSize
             words := [(mem.ptrSize * 2, PrimVal.Bytes (al % 2 ^ (8 * mem.ptrSize))),
                       (mem.ptrSize, PrimVal.Bytes (sz % 2 ^ (8 * mem.ptrSize))),
                       (0, PrimVal.Ptr ⟨mem.nextId + 1, 0⟩)] 
             isStatic := false
             mutability := Mutability.Mutable } : Allocation)) :: mem.allocs
        fnAllocs := (mem.nextId + 1, ctx.resolve_drop_in_place ty) :: mem.fnAllocs
        nextId := mem.nextId + 2 } := ⟨_, rfl⟩
  have hpsE : memE.ptrSize = mem.ptrSize := by rw [hmemE]
  have haE : alookup mem.nextId memE.allocs = some A3 := by
    rw [hmemE, hA3]
    show alookup mem.nextId ((mem.nextId, _) :: mem.allocs) = _
    simp [alookup]
  have hsE : A3.isStatic = false := by rw [hA3]
  have hszE : mem.ptrSize * (3 + 0 + (ctx.get_vtable_methods tr).length) ≤ A3.size := by
    rw [hA3]
  have hfitE : A3.size < u64Modulus := by rw [hA3]; exact hfit
  obtain ⟨mem', A', hrun, hla, hsize, halign, hstat, hmut, hpres, hsome, hnone,
    hptr, hlen, hoth, hfn, hnid⟩ :=
    write_vtable_methods_spec ctx mem.ptrSize ⟨mem.nextId, 0⟩
      (ctx.get_vtable_methods tr) 0 memE A3 rfl hpsE haE hsE hW hszE hfitE
  have hproj : (⟨mem.nextId, 0⟩ : MemoryPointer).alloc_id = mem.nextId := rfl
  rw [hproj] at hla hoth
  have hpres3 : ∀ o, o < mem.ptrSize * 3 → A'.readWordAt o = A3.readWordAt o := by
    intro o ho
    exact hpres o (by rw [show (3 : Nat) + 0 = 3 from rfl]; exact ho)
  have hsome3 : ∀ j d s, (ctx.get_vtable_methods tr).get? j = some (some (d, s)) →
      ∃ fp : MemoryPointer, A'.readWordAt (mem.ptrSize * (3 + j)) = .Ptr fp ∧
        fp.offset = 0 ∧ alookup fp.alloc_id mem'.fnAllocs = some (ctx.resolve d s) := by
    intro j d s hj
    have h := hsome j d s hj
    rwa [show 3 + 0 + j = 3 + j from by omega] at h
  have hnone3 : ∀ j, (ctx.get_vtable_methods tr).get? j = some none →
      A'.readWordAt (mem.ptrSize * (3 + j)) = A3.readWordAt (mem.ptrSize * (3 + j)) := by
    intro j hj
    have h := hnone j hj
    rwa [show 3 + 0 + j = 3 + j from by omega] at h
  obtain ⟨AF, hAF⟩ : ∃ a : Allocation, a =
      { A' with isStatic := true, mutability := Mutability.Mutable } := ⟨_, rfl⟩
  obtain ⟨memF, hmemF⟩ : ∃ m : Memory, m =
      { mem' with
        allocs := updateAlloc mem.nextId
            (fun a => { a with isStatic := true, mutability := Mutability.Mutable })
            mem'.allocs } := ⟨_, rfl⟩
  refine ⟨memF, AF, ?_, ?_, ?_, ?_, ?_, ?_, ?_, ?_, ?_, ?_, ?_, ?_, ?_, ?_⟩
  · -- the run equation
    rw [hmemE] at hrun
    rw [hmemF]
    simp [get_vtable, hsz, hal, Memory.pointer_size, Memory.allocate, hmod,
      Memory.create_fn_alloc, Memory.write_ptr_sized_unsigned, alookup, updateAlloc,
      truncWord, hoff1, hoff2, hWle, hb1, hb2, hrun, Memory.mark_static_initalized]
  · -- lookup of the vtable allocation
    rw [hmemF, hAF]
    show alookup mem.nextId (updateAlloc mem.nextId _ mem'.allocs) = _
    rw [alookup_updateAlloc_self, hla]
    rfl
  · rw [hAF]
    show A'.size = _
    rw [hsize, hA3]
  · rw [hAF]
    show A'.align = _
    rw [halign, hA3]
  · rw [hAF]
  · rw [hAF]
  · -- the destructor slot
    refine ⟨⟨mem.nextId + 1, 0⟩, ?_, rfl, ?_⟩
    · rw [hAF, readWordAt_mark]
      rw [hpres3 0 (by omega), hA3]
      have hne2 : ¬(mem.ptrSize * 2 = 0) := by omega
      have hne1 : ¬(mem.ptrSize = 0) := by omega
      simp [Allocation.readWordAt, alookup, hne1, hne2]
    · rw [hmemF]
      show alookup (mem.nextId + 1) mem'.fnAllocs = _
      rw [hfn (mem.nextId + 1) (by rw [hmemE]; show mem.nextId + 1 < mem.nextId + 2; omega),
        hmemE]
      show alookup (mem.nextId + 1) ((mem.nextId + 1, ctx.resolve_drop_in_place ty) ::
        mem.fnAllocs) = _
      simp [alookup]
  · -- the size slot
    rw [hAF, readWordAt_mark, hpres3 mem.ptrSize (by omega), hA3]
    have hne2 : ¬(mem.ptrSize * 2 = mem.ptrSize) := by omega
    simp [Allocation.readWordAt, alookup, hne2]
  · -- the align slot
    rw [hAF, readWordAt_mark, hpres3 (mem.ptrSize * 2) (by omega), hA3]
    simp [Allocation.readWordAt, alookup]
  · -- dispatchable method slots
    intro j d s hj
    obtain ⟨fp, hw, hfo, hfl⟩ := hsome3 j d s hj
    refine ⟨fp, ?_, hfo, ?_⟩
    · rw [hAF, readWordAt_mark]
      exact hw
    · rw [hmemF]
      show alookup fp.alloc_id mem'.fnAllocs = _
      exact hfl
  · -- non-dispatchable method slots
    intro j hj
    rw [hAF, readWordAt_mark, hnone3 j hj, hA3]
    have hne2 : mem.ptrSize * 2 ≠ mem.ptrSize * (3 + j) :=
      mul_ne_helper mem.ptrSize 2 (3 + j) hW (by omega)
    have hne1 : ¬(mem.ptrSize = mem.ptrSize * (3 + j)) := by
      have h := mul_ne_helper mem.ptrSize 1 (3 + j) hW (by omega)
      simpa using h
    have hpos : 0 < mem.ptrSize * (3 + j) := Nat.mul_pos hW (by omega)
    have hne0 : ¬((0 : Nat) = mem.ptrSize * (3 + j)) := by omega
    simp [Allocation.readWordAt, alookup, hne0, hne1, hne2]
  · -- pointer size preserved
    rw [hmemF]
    show mem'.ptrSize = mem.ptrSize
    rw [hptr, hmemE]
  · -- exactly one new allocation
    rw [hmemF]
    show (updateAlloc mem.nextId _ mem'.allocs).length = mem.allocs.length + 1
    rw [length_updateAlloc, hlen, hmemE]
    simp
  · -- other allocations untouched
    intro id hid
    rw [hmemF]
    show alookup id (updateAlloc mem.nextId _ mem'.allocs) = alookup id mem.allocs
    rw [alookup_updateAlloc_ne _ _ _ _ hid, hoth id hid, hmemE]
    show alookup id ((mem.nextId, _) :: mem.allocs) = alookup id mem.allocs
    have hne : mem.nextId ≠ id := Ne.symm hid
    simp [alookup, hne]

end Interp

namespace Interp

theorem ptrSize_le_vtable_size (W M : Nat) : W ≤ W * (3 + M) := by
  have h := Nat.mul_le_mul (Nat.le_refl W) (show 1 ≤ 3 + M by omega)
  simpa using h

theorem two_ptr_le_vtable_size (W M : Nat) : W + W ≤ W * (3 + M) := by
  have h := Nat.mul_le_mul (Nat.le_refl W) (show 2 ≤ 3 + M by omega)
  have h2 : W * 2 = W + W := by ring
  omega

theorem three_ptr_le_vtable_size (W M : Nat) : W * 2 + W ≤ W * (3 + M) := by
  have h := Nat.mul_le_mul (Nat.le_refl W) (show 3 ≤ 3 + M by omega)
  have h2 : W * 3 = W * 2 + W := by ring
  omega

theorem ptrOffset_from_zero (p i : Nat) (h : i < u64Modulus) :
    MemoryPointer.ptrOffset ⟨p, 0⟩ i = .ok ⟨p, i⟩ := by
  unfold MemoryPointer.ptrOffset
  rw [if_pos (show (⟨p, 0⟩ : MemoryPointer).offset + i < u64Modulus by simpa using h)]
  simp

/-- Claim C1: for every sized concrete type and trait reference, a run of
`get_vtable` succeeds and allocates exactly one new block in interpreter
memory, of `pointer_size * (3 + M)` bytes at `pointer_size` alignment, where
`M` is the number of slots of the trait's method table. -/
theorem get_vtable_allocates_one_block (ctx : EvalContext) (mem : Memory) (ty : Nat)
    (tr : TraitRef) (sz al : Nat)
    (hsz : ctx.type_size tr.self_ty = Except.ok (some sz))
    (hal : ctx.type_align tr.self_ty = Except.ok al)
    (hW : 0 < mem.ptrSize)
    (hfit : mem.ptrSize * (3 + (ctx.get_vtable_methods tr).length) < u64Modulus) :
    ∃ (memF : Memory) (A : Allocation),
      get_vtable ctx mem ty tr = .ok (⟨mem.nextId, 0⟩, memF) ∧
      alookup mem.nextId memF.allocs = some A ∧
      A.size = mem.ptrSize * (3 + (ctx.get_vtable_methods tr).length) ∧
      A.align = mem.ptrSize ∧
      memF.allocs.length = mem.allocs.length + 1 ∧
      (∀ id, id ≠ mem.nextId → alookup id memF.allocs = alookup id mem.allocs) := by
  obtain ⟨memF, A, h1, h2, h3, h4, _, _, _, _, _, _, _, _, h13, h14⟩ :=
    get_vtable_ok ctx mem ty tr sz al hsz hal hW hfit
  exact ⟨memF, A, h1, h2, h3, h4, h13, h14⟩

/-- Witness for C1: the concrete scenario (8-byte pointers, a 4-byte self type,
a two-slot method table) allocates one 40-byte block at 8-byte alignment. -/
theorem get_vtable_allocates_one_block_witness :
    ∃ (memF : Memory) (A : Allocation),
      get_vtable ctxW memW 7 trW = .ok (⟨memW.nextId, 0⟩, memF) ∧
      alookup memW.nextId memF.allocs = some A ∧
      A.size = memW.ptrSize * (3 + (ctxW.get_vtable_methods trW).length) ∧
      A.align = memW.ptrSize ∧
      memF.allocs.length = memW.allocs.length + 1 ∧
      (∀ id, id ≠ memW.nextId → alookup id memF.allocs = alookup id memW.allocs) :=
  get_vtable_allocates_one_block ctxW memW 7 trW 4 4 rfl rfl (by decide) (by decide)

/-- Claim C2 (amended): after a successful `get_vtable`, reading the destructor
entry back from the fresh table always yields `some` resolved drop-glue
instance; `get_vtable` unconditionally writes the `resolve_drop_in_place`
function pointer at offset 0 and never stores the null sentinel there, whether
or not the type needs destruction. -/
theorem read_drop_after_build_always_some (ctx : EvalContext) (mem : Memory) (ty : Nat)
    (tr : TraitRef) (sz al : Nat)
    (hsz : ctx.type_size tr.self_ty = Except.ok (some sz))
    (hal : ctx.type_align tr.self_ty = Except.ok al)
    (hW : 0 < mem.ptrSize)
    (hfit : mem.ptrSize * (3 + (ctx.get_vtable_methods tr).length) < u64Modulus) :
    drop_after_build ctx mem ty tr = .ok (some (ctx.resolve_drop_in_place ty)) := by
  obtain ⟨memF, A, h1, h2, h3, h4, _, _, ⟨fp, hw0, hfo, hfl⟩, _, _, _, _, h12, _, _⟩ :=
    get_vtable_ok ctx mem ty tr sz al hsz hal hW hfit
  have hb : memF.ptrSize ≤ A.size := by
    rw [h12, h3]; exact ptrSize_le_vtable_size _ _
  simp [drop_after_build, h1, read_drop_type_from_vtable, Memory.read_ptr,
    Memory.read_ptr_sized_unsigned, h2, hb, hw0, Memory.get_fn, hfo, hfl]

/-- Witness for the amended C2 at the concrete context. -/
theorem read_drop_after_build_always_some_witness :
    drop_after_build ctxW memW 7 trW = .ok (some (ctxW.resolve_drop_in_place 7)) :=
  read_drop_after_build_always_some ctxW memW 7 trW 4 4 rfl rfl (by decide) (by decide)

/-- Claim C2 counterexample: the concrete type `7` needs no destruction
(`needs_drop` is `false`), yet the destructor entry of its freshly built vtable
reads back as `some` drop-glue instance, not `none`: the builder wrote a
function pointer, not the null sentinel. -/
theorem read_drop_after_build_not_none :
    ctxW.needs_drop 7 = false ∧
    drop_after_build ctxW memW 7 trW = .ok (some ⟨1007, ⟨7, [], []⟩⟩) ∧
    drop_after_build ctxW memW 7 trW ≠ .ok none :=
  ⟨rfl, by decide, by decide⟩

/-- Claim C3: after a successful `get_vtable`, `read_size_and_align_from_vtable`
on the returned handle yields exactly the size and alignment the layout oracle
reported for the self type (whenever they fit in one pointer-sized word). -/
theorem read_size_align_roundtrip (ctx : EvalContext) (mem : Memory) (ty : Nat)
    (tr : TraitRef) (sz al : Nat)
    (hsz : ctx.type_size tr.self_ty = Except.ok (some sz))
    (hal : ctx.type_align tr.self_ty = Except.ok al)
    (hW : 0 < mem.ptrSize)
    (hfit : mem.ptrSize * (3 + (ctx.get_vtable_methods tr).length) < u64Modulus)
    (hszw : sz < 2 ^ (8 * mem.ptrSize)) (hszu : sz < u64Modulus)
    (halw : al < 2 ^ (8 * mem.ptrSize)) (halu : al < u64Modulus) :
    ∃ memF : Memory,
      get_vtable ctx mem ty tr = .ok (⟨mem.nextId, 0⟩, memF) ∧
      read_size_and_align_from_vtable memF ⟨mem.nextId, 0⟩ = .ok (sz, al) := by
  obtain ⟨memF, A, h1, h2, h3, h4, _, _, _, h8, h9, _, _, h12, _, _⟩ :=
    get_vtable_ok ctx mem ty tr sz al hsz hal hW hfit
  refine ⟨memF, h1, ?_⟩
  have hu1 : mem.ptrSize < u64Modulus :=
    lt_of_le_of_lt (ptrSize_le_vtable_size mem.ptrSize _) hfit
  have hu2 : mem.ptrSize * 2 < u64Modulus := by
    have h := three_ptr_le_vtable_size mem.ptrSize (ctx.get_vtable_methods tr).length
    omega
  have hb1 : mem.ptrSize + mem.ptrSize ≤ A.size := by
    rw [h3]; exact two_ptr_le_vtable_size _ _
  have hb2 : mem.ptrSize * 2 + mem.ptrSize ≤ A.size := by
    rw [h3]; exact three_ptr_le_vtable_size _ _
  have e1 : sz % 2 ^ (8 * mem.ptrSize) = sz := Nat.mod_eq_of_lt hszw
  have e2 : sz % u64Modulus = sz := Nat.mod_eq_of_lt hszu
  have e3 : al % 2 ^ (8 * mem.ptrSize) = al := Nat.mod_eq_of_lt halw
  have e4 : al % u64Modulus = al := Nat.mod_eq_of_lt halu
  simp [read_size_and_align_from_vtable, Memory.pointer_size, h12,
    ptrOffset_from_zero _ _ hu1, ptrOffset_from_zero _ _ hu2,
    Memory.read_ptr_sized_unsigned, h2, hb1, hb2, h8, h9, PrimVal.to_bytes,
    e1, e2, e3, e4]

/-- Witness for C3: the concrete scenario reads back exactly `(4, 4)`. -/
theorem read_size_align_roundtrip_witness :
    ∃ memF : Memory,
      get_vtable ctxW memW 7 trW = .ok (⟨memW.nextId, 0⟩, memF) ∧
      read_size_and_align_from_vtable memF ⟨memW.nextId, 0⟩ = .ok (4, 4) :=
  read_size_align_roundtrip ctxW memW 7 trW 4 4 rfl rfl (by decide) (by decide)
    (by decide) (by decide) (by decide) (by decide)

end Interp

namespace Interp

/-- Claim C4: in the table built by `get_vtable`, a method slot whose
method-table entry names a (definition, substitution) pair holds the function
pointer of the instance resolved from that pair, and a slot whose entry is
empty holds the null sentinel. -/
theorem get_vtable_method_slots (ctx : EvalContext) (mem : Memory) (ty : Nat)
    (tr : TraitRef) (sz al : Nat)
    (hsz : ctx.type_size tr.self_ty = Except.ok (some sz))
    (hal : ctx.type_align tr.self_ty = Except.ok al)
    (hW : 0 < mem.ptrSize)
    (hfit : mem.ptrSize * (3 + (ctx.get_vtable_methods tr).length) < u64Modulus) :
    ∃ memF : Memory,
      get_vtable ctx mem ty tr = .ok (⟨mem.nextId, 0⟩, memF) ∧
      (∀ j d s, (ctx.get_vtable_methods tr).get? j = some (some (d, s)) →
        ∃ fp : MemoryPointer,
          memF.read_ptr_sized_unsigned ⟨mem.nextId, mem.ptrSize * (3 + j)⟩ =
            .ok (.Ptr fp) ∧
          memF.get_fn fp = .ok (ctx.resolve d s)) ∧
      (∀ j, (ctx.get_vtable_methods tr).get? j = some none →
        memF.read_ptr_sized_unsigned ⟨mem.nextId, mem.ptrSize * (3 + j)⟩ =
          .ok (.Bytes 0)) := by
  obtain ⟨memF, A, h1, h2, h3, h4, _, _, _, _, _, h10, h11, h12, _, _⟩ :=
    get_vtable_ok ctx mem ty tr sz al hsz hal hW hfit
  refine ⟨memF, h1, ?_, ?_⟩
  · intro j d s hj
    have hjlt : j < (ctx.get_vtable_methods tr).length := by
      rcases List.get?_eq_some.mp hj with ⟨h, _⟩
      exact h
    have hb : mem.ptrSize * (3 + j) + mem.ptrSize ≤ A.size := by
      rw [h3]
      have h := Nat.mul_le_mul (Nat.le_refl mem.ptrSize)
        (show 3 + j + 1 ≤ 3 + (ctx.get_vtable_methods tr).length by omega)
      have h2 : mem.ptrSize * (3 + j) + mem.ptrSize = mem.ptrSize * (3 + j + 1) := by ring
      omega
    obtain ⟨fp, hw, hfo, hfl⟩ := h10 j d s hj
    refine ⟨fp, ?_, ?_⟩
    · simp [Memory.read_ptr_sized_unsigned, h2, h12, hb, hw]
    · simp [Memory.get_fn, hfo, hfl]
  · intro j hj
    have hjlt : j < (ctx.get_vtable_methods tr).length := by
      rcases List.get?_eq_some.mp hj with ⟨h, _⟩
      exact h
    have hb : mem.ptrSize * (3 + j) + mem.ptrSize ≤ A.size := by
      rw [h3]
      have h := Nat.mul_le_mul (Nat.le_refl mem.ptrSize)
        (show 3 + j + 1 ≤ 3 + (ctx.get_vtable_methods tr).length by omega)
      have h2 : mem.ptrSize * (3 + j) + mem.ptrSize = mem.ptrSize * (3 + j + 1) := by ring
      omega
    simp [Memory.read_ptr_sized_unsigned, h2, h12, hb, h11 j hj]

/-- Witness for C4 at the concrete context: slot 0 is dispatchable, slot 1 is
not. -/
theorem get_vtable_method_slots_witness :
    ∃ memF : Memory,
      get_vtable ctxW memW 7 trW = .ok (⟨memW.nextId, 0⟩, memF) ∧
      (∀ j d s, (ctxW.get_vtable_methods trW).get? j = some (some (d, s)) →
        ∃ fp : MemoryPointer,
          memF.read_ptr_sized_unsigned ⟨memW.nextId, memW.ptrSize * (3 + j)⟩ =
            .ok (.Ptr fp) ∧
          memF.get_fn fp = .ok (ctxW.resolve d s)) ∧
      (∀ j, (ctxW.get_vtable_methods trW).get? j = some none →
        memF.read_ptr_sized_unsigned ⟨memW.nextId, memW.ptrSize * (3 + j)⟩ =
          .ok (.Bytes 0)) :=
  get_vtable_method_slots ctxW memW 7 trW 4 4 rfl rfl (by decide) (by decide)

/-- Claim C5 (code bug): the final memory effect of a successful `get_vtable`
is `mark_static_initalized(vtable.alloc_id, Mutability::Mutable)`: the block is
marked static/initialized but remains mutable, so it is not frozen — a
subsequent pointer-sized write to the vtable block still succeeds. -/
theorem get_vtable_marks_block_mutable (ctx : EvalContext) (mem : Memory) (ty : Nat)
    (tr : TraitRef) (sz al : Nat)
    (hsz : ctx.type_size tr.self_ty = Except.ok (some sz))
    (hal : ctx.type_align tr.self_ty = Except.ok al)
    (hW : 0 < mem.ptrSize)
    (hfit : mem.ptrSize * (3 + (ctx.get_vtable_methods tr).length) < u64Modulus) :
    ∃ (memF : Memory) (A : Allocation),
      get_vtable ctx mem ty tr = .ok (⟨mem.nextId, 0⟩, memF) ∧
      alookup mem.nextId memF.allocs = some A ∧
      A.isStatic = true ∧
      A.mutability = .Mutable ∧
      ∃ memG : Memory,
        memF.write_ptr_sized_unsigned ⟨mem.nextId, 0⟩ (.Bytes 1) = .ok memG := by
  obtain ⟨memF, A, h1, h2, h3, h4, h5, h6, _, _, _, _, _, h12, _, _⟩ :=
    get_vtable_ok ctx mem ty tr sz al hsz hal hW hfit
  have hb : memF.ptrSize ≤ A.size := by
    rw [h12, h3]; exact ptrSize_le_vtable_size _ _
  refine ⟨memF, A, h1, h2, h5, h6, ?_⟩
  have hwr : memF.write_ptr_sized_unsigned ⟨mem.nextId, 0⟩ (.Bytes 1) =
      .ok { ptrSize := memF.ptrSize,
            allocs := updateAlloc mem.nextId
                (fun a0 => { a0 with
                    words := (0, truncWord memF.ptrSize (PrimVal.Bytes 1)) :: a0.words })
                memF.allocs,
            fnAllocs := memF.fnAllocs,
            nextId := memF.nextId } := by
    simp [Memory.write_ptr_sized_unsigned, h2, h5, h6, hb]
  exact ⟨_, hwr⟩

/-- Witness for C5 at the concrete context. -/
theorem get_vtable_marks_block_mutable_witness :
    ∃ (memF : Memory) (A : Allocation),
      get_vtable ctxW memW 7 trW = .ok (⟨memW.nextId, 0⟩, memF) ∧
      alookup memW.nextId memF.allocs = some A ∧
      A.isStatic = true ∧
      A.mutability = .Mutable ∧
      ∃ memG : Memory,
        memF.write_ptr_sized_unsigned ⟨memW.nextId, 0⟩ (.Bytes 1) = .ok memG :=
  get_vtable_marks_block_mutable ctxW memW 7 trW 4 4 rfl rfl (by decide) (by decide)

/-- Claim C6: when the layout oracle reports the self type unsized (no size),
`get_vtable` aborts with the internal precondition panic and never returns a
handle. -/
theorem get_vtable_unsized_fatal (ctx : EvalContext) (mem : Memory) (ty : Nat)
    (tr : TraitRef)
    (h : ctx.type_size tr.self_ty = Except.ok none) :
    get_vtable ctx mem ty tr = .fatal .unsizedVtablePanic ∧
    ∀ r, get_vtable ctx mem ty tr ≠ .ok r := by
  have h1 : get_vtable ctx mem ty tr = .fatal .unsizedVtablePanic := by
    simp [get_vtable, h]
  refine ⟨h1, fun r hc => ?_⟩
  rw [h1] at hc
  exact Outcome.noConfusion hc

/-- Witness for C6 at a context whose oracle reports the self type unsized. -/
theorem get_vtable_unsized_fatal_witness :
    get_vtable ctxUnsized memW 7 trW = .fatal .unsizedVtablePanic ∧
    ∀ r, get_vtable ctxUnsized memW 7 trW ≠ .ok r :=
  get_vtable_unsized_fatal ctxUnsized memW 7 trW rfl

end Interp

namespace Interp

/-- Claim C7: `trans_fulfill_obligation` returns the recoverable
`UnimplementedTraitSelection` error value exactly when the solver reports that
no implementation exists; a solver ambiguity outcome instead produces the fatal
recursion-limit diagnostic, which is distinct from every recoverable error. -/
theorem trans_fulfill_error_classification (ctx : EvalContext) (span env : Nat)
    (tr : TraitRef) :
    (trans_fulfill_obligation ctx span env tr = .err .unimplementedTraitSelection ↔
      ctx.select span env (erase_regions tr) = .errUnimplemented) ∧
    (ctx.select span env (erase_regions tr) = .okNone →
      trans_fulfill_obligation ctx span env tr =
        .fatal (.recursionLimitSelectionAmbiguity span) ∧
      ∀ e : EvalError, trans_fulfill_obligation ctx span env tr ≠ .err e) := by
  cases hsel : ctx.select span env (erase_regions tr) with
  | okSome s =>
    cases hdr : ctx.drain_fulfillment span s.nested s.kind with
    | some v =>
      have hr : trans_fulfill_obligation ctx span env tr = .ok v := by
        simp [trans_fulfill_obligation, hsel, hdr]
      refine ⟨⟨fun h => ?_, fun h => ?_⟩, fun h => ?_⟩
      · rw [hr] at h; exact Outcome.noConfusion h
      · exact SelectResult.noConfusion h
      · exact SelectResult.noConfusion h
    | none =>
      have hr : trans_fulfill_obligation ctx span env tr =
          .fatal (.fulfillmentCycleBug span) := by
        simp [trans_fulfill_obligation, hsel, hdr]
      refine ⟨⟨fun h => ?_, fun h => ?_⟩, fun h => ?_⟩
      · rw [hr] at h; exact Outcome.noConfusion h
      · exact SelectResult.noConfusion h
      · exact SelectResult.noConfusion h
  | okNone =>
    have hr : trans_fulfill_obligation ctx span env tr =
        .fatal (.recursionLimitSelectionAmbiguity span) := by
      simp [trans_fulfill_obligation, hsel]
    refine ⟨⟨fun h => ?_, fun h => ?_⟩, fun _ => ⟨hr, fun e hc => ?_⟩⟩
    · rw [hr] at h; exact Outcome.noConfusion h
    · exact SelectResult.noConfusion h
    · rw [hr] at hc; exact Outcome.noConfusion hc
  | errUnimplemented =>
    have hr : trans_fulfill_obligation ctx span env tr =
        .err .unimplementedTraitSelection := by
      simp [trans_fulfill_obligation, hsel]
    refine ⟨⟨fun _ => rfl, fun _ => hr⟩, fun h => ?_⟩
    exact SelectResult.noConfusion h
  | errOther t =>
    have hr : trans_fulfill_obligation ctx span env tr =
        .fatal (.selectionBug span t) := by
      simp [trans_fulfill_obligation, hsel]
    refine ⟨⟨fun h => ?_, fun h => ?_⟩, fun h => ?_⟩
    · rw [hr] at h; exact Outcome.noConfusion h
    · exact SelectResult.noConfusion h
    · exact SelectResult.noConfusion h

/-- Witness for C7: a solver that reports ambiguity yields the fatal
recursion-limit diagnostic. -/
theorem trans_fulfill_error_classification_witness :
    trans_fulfill_obligation ctxAmb 3 0 trW =
      .fatal (.recursionLimitSelectionAmbiguity 3) :=
  ((trans_fulfill_error_classification ctxAmb 3 0 trW).2 rfl).1

theorem map_const_zero_of_length_eq (l1 l2 : List Nat) (h : l1.length = l2.length) :
    l1.map (fun _ => 0) = l2.map (fun _ => 0) := by
  induction l1 generalizing l2 with
  | nil =>
    cases l2 with
    | nil => rfl
    | cons b t => simp at h
  | cons a t ih =>
    cases l2 with
    | nil => simp at h
    | cons b t2 => simp [ih t2 (by simpa using h)]

/-- Claim C8: two trait references identical except for their concrete region
(lifetime) arguments produce identical `trans_fulfill_obligation` outcomes, for
every span and parameter environment. -/
theorem trans_fulfill_region_erasure_invariance (ctx : EvalContext) (span env : Nat)
    (tr1 tr2 : TraitRef)
    (hid : tr1.trait_def_id = tr2.trait_def_id)
    (hself : tr1.substs.selfTy = tr2.substs.selfTy)
    (hargs : tr1.substs.typeArgs = tr2.substs.typeArgs)
    (hreg : tr1.substs.regions.length = tr2.substs.regions.length) :
    trans_fulfill_obligation ctx span env tr1 =
      trans_fulfill_obligation ctx span env tr2 := by
  have herase : erase_regions tr1 = erase_regions tr2 := by
    obtain ⟨d1, s1, a1, r1⟩ := tr1
    obtain ⟨d2, s2, a2, r2⟩ := tr2
    simp only [TraitRef.trait_def_id] at hid
    simp only [Substs.selfTy, Substs.typeArgs, Substs.regions, List.length] at hself hargs hreg
    subst hid hself hargs
    simp only [erase_regions]
    rw [map_const_zero_of_length_eq r1 r2 hreg]
  simp only [trans_fulfill_obligation]
  rw [herase]

/-- Witness for C8: two references differing only in one region value. -/
theorem trans_fulfill_region_erasure_invariance_witness :
    trans_fulfill_obligation ctxW 0 0 trR1 = trans_fulfill_obligation ctxW 0 0 trR2 :=
  trans_fulfill_region_erasure_invariance ctxW 0 0 trR1 trR2 rfl rfl rfl rfl

end Interp

namespace Interp

/-- Claim C9: `resolve_associated_const` returns the overriding impl constant
(paired with the impl's substitution) exactly when the item is a trait item,
fulfillment selects a concrete impl, and that impl carries a constant item of
the same name; in every other non-error case (inherent item, non-impl
selection, no matching item) it returns the original pair unchanged. -/
theorem resolve_associated_const_cases (ctx : EvalContext) (d : Nat) (s : Substs) :
    (ctx.trait_of_item d = none → resolve_associated_const ctx d s = .ok ⟨d, s⟩) ∧
    (∀ tid iid isubsts item,
      ctx.trait_of_item d = some tid →
      trans_fulfill_obligation ctx DUMMY_SP ctx.param_env ⟨tid, s⟩ =
        .ok (.vtableImpl iid isubsts) →
      (ctx.associated_items iid).find?
          (fun it => it.kind == AssociatedKind.Const && it.name == ctx.item_name d) =
        some item →
      resolve_associated_const ctx d s = .ok ⟨item.def_id, isubsts⟩) ∧
    (∀ tid iid isubsts,
      ctx.trait_of_item d = some tid →
      trans_fulfill_obligation ctx DUMMY_SP ctx.param_env ⟨tid, s⟩ =
        .ok (.vtableImpl iid isubsts) →
      (ctx.associated_items iid).find?
          (fun it => it.kind == AssociatedKind.Const && it.name == ctx.item_name d) =
        none →
      resolve_associated_const ctx d s = .ok ⟨d, s⟩) ∧
    (∀ tid k,
      ctx.trait_of_item d = some tid →
      trans_fulfill_obligation ctx DUMMY_SP ctx.param_env ⟨tid, s⟩ =
        .ok (.vtableOther k) →
      resolve_associated_const ctx d s = .ok ⟨d, s⟩) := by
  refine ⟨?_, ?_, ?_, ?_⟩
  · intro h
    simp [resolve_associated_const, h]
  · intro tid iid isubsts item h1 h2 h3
    simp [resolve_associated_const, h1, h2, h3]
  · intro tid iid isubsts h1 h2 h3
    simp [resolve_associated_const, h1, h2, h3]
  · intro tid k h1 h2
    simp [resolve_associated_const, h1, h2]

/-- Witness for C9: the concrete impl `10` overrides trait constant `5` with
item `42`, and the impl substitution is returned with it. -/
theorem resolve_associated_const_cases_witness :
    resolve_associated_const ctxW 5 substsW = .ok ⟨42, substsW⟩ :=
  (resolve_associated_const_cases ctxW 5 substsW).2.1 1 10 substsW ⟨.Const, 5, 42⟩
    (by decide) (by decide) (by decide)

/-- Claim C10: when the item belongs to a trait and the solver reports that no
implementation exists, the recoverable unimplemented-trait-selection error
propagates out of `resolve_associated_const`; there is no fallback to the
original definition. -/
theorem resolve_associated_const_propagates_unimplemented (ctx : EvalContext)
    (d : Nat) (s : Substs) (tid : Nat)
    (h1 : ctx.trait_of_item d = some tid)
    (h2 : ctx.select DUMMY_SP ctx.param_env (erase_regions ⟨tid, s⟩) =
      .errUnimplemented) :
    resolve_associated_const ctx d s = .err .unimplementedTraitSelection := by
  have h3 : trans_fulfill_obligation ctx DUMMY_SP ctx.param_env ⟨tid, s⟩ =
      .err .unimplementedTraitSelection := by
    simp [trans_fulfill_obligation, h2]
  simp [resolve_associated_const, h1, h3]

/-- Witness for C10: with a solver that reports `Unimplemented`, the trait
constant `5` resolves to the recoverable error rather than its default. -/
theorem resolve_associated_const_propagates_unimplemented_witness :
    resolve_associated_const ctxUnimpl 5 substsW = .err .unimplementedTraitSelection :=
  resolve_associated_const_propagates_unimplemented ctxUnimpl 5 substsW 1
    (by decide) (by decide)

end Interp
